import Mathlib

/-!
Verification of the CA/AZ performance-dashboard data-engineering pipeline
(`dashboard/data_engineering.py`).

The pipeline is embedded shallowly:

* a pandas DataFrame of load rows becomes a `List` of typed records;
* `NaN` cells (undefined means / undefined percent changes) become `Option`
  values, with `none` playing the role of the `NaN` sentinel;
* Python decimal numbers (revenue, rates, percentages) are modelled as exact
  rationals `ℚ`; Python `round` (banker's rounding) and `int` (truncation
  toward zero) are given exact rational counterparts;
* date strings are parsed exactly as `datetime.strptime(s, "%Y-%m-%d")`
  accepts them, and a parsed calendar date is encoded as its day number
  (days since 1970-01-01, the standard civil-calendar encoding used by
  `datetime.date.toordinal` up to a constant shift); under this encoding
  Python's `date.weekday()` is `(dayNumber + 3) % 7` with Monday = 0;
* string processing (`split`, `strip`, `upper`, `title`, substring tests,
  the state/zip regular expression) is implemented over `List Char`,
  restricted to ASCII exactly as the data the dashboard consumes.

Row order produced by pandas (`sort_values`, sorted group keys) is mirrored
with an insertion sort; none of the verified properties depend on tie-break
order.
-/

namespace Dashboard

/-! ## Character and string helpers (ASCII models of the Python `str` methods) -/

/-- ASCII whitespace, the character class of Python's `\s` and `str.strip()`. -/
def isSpaceChar (c : Char) : Bool :=
  c = '\x20' || c = '\t' || c = '\n' || c = '\r' || c = '\x0b' || c = '\x0c'

/-- ASCII uppercase letter, the character class `[A-Z]`. -/
def isUpperAZ (c : Char) : Bool :=
  'A' ≤ c && c ≤ 'Z'

/-- Python `str.strip()` on a character list. -/
def stripChars (l : List Char) : List Char :=
  ((l.dropWhile isSpaceChar).reverse.dropWhile isSpaceChar).reverse

/-- Python `str.strip()`. -/
def pyStrip (s : String) : String :=
  String.mk (stripChars s.toList)

/-- Python `str.upper()` (ASCII). -/
def pyUpper (s : String) : String :=
  String.mk (s.toList.map Char.toUpper)

/-- Helper for `pyTitle`: the boolean argument records whether the previous
character was alphabetic. -/
def titleChars : Bool → List Char → List Char
  | _, [] => []
  | prevAlpha, c :: rest =>
    (if c.isAlpha then (if prevAlpha then c.toLower else c.toUpper) else c)
      :: titleChars c.isAlpha rest

/-- Python `str.title()` (ASCII): the first letter of every alphabetic run is
upper-cased and the rest lower-cased. -/
def pyTitle (s : String) : String :=
  String.mk (titleChars false s.toList)

/-- Python `str.split(sep)` for a one-character separator: splits at every
occurrence, keeping empty parts (so `"".split(",") == [""]`). -/
def splitOnChar (sep : Char) : List Char → List (List Char)
  | [] => [[]]
  | c :: rest =>
    if c = sep then [] :: splitOnChar sep rest
    else
      match splitOnChar sep rest with
      | [] => [[c]]
      | h :: t => (c :: h) :: t

/-- Whether the first list is a prefix of the second (Python `startswith`). -/
def startsWithChars : List Char → List Char → Bool
  | [], _ => true
  | _ :: _, [] => false
  | a :: as, b :: bs => a = b && startsWithChars as bs

/-- Whether `needle` occurs as a contiguous substring of `hay`
(Python's `needle in hay`). -/
def hasSubChars (needle : List Char) : List Char → Bool
  | [] => startsWithChars needle []
  | c :: rest => startsWithChars needle (c :: rest) || hasSubChars needle rest

/-- Python `needle in hay` on strings. -/
def strHas (needle hay : String) : Bool :=
  hasSubChars needle.toList hay.toList

/-- The part of `l` after the first occurrence of `sep`
(Python `s.split(sep, 1)[1]` when `sep` occurs in `s`). -/
def afterFirstChars (sep : List Char) : List Char → List Char
  | [] => []
  | c :: rest =>
    if startsWithChars sep (c :: rest) then (c :: rest).drop sep.length
    else afterFirstChars sep rest

/-- Python `s.split(sep, 1)[1]` on strings (meaningful when `sep` occurs). -/
def afterFirst (sep s : String) : String :=
  String.mk (afterFirstChars sep.toList s.toList)

/-! ## Location Resolver (`data_engineering.py`, section 1) -/

/-- `TERMINAL_CITY_MAP`: the static terminal/facility-name lookup table. -/
def TERMINAL_CITY_MAP : List (String × String × String) :=
  [("ITS LONG BEACH", "Long Beach", "CA"),
   ("TTI", "Long Beach", "CA"),
   ("TRAPAC WILMINGTON", "Wilmington", "CA"),
   ("LBCT", "Long Beach", "CA"),
   ("WBCT", "Long Beach", "CA"),
   ("APM LOS ANGELES", "Los Angeles", "CA"),
   ("FENIX", "Terminal Island", "CA"),
   ("YTI", "Long Beach", "CA"),
   ("EVERPORT TERMINAL ISLAND", "Terminal Island", "CA"),
   ("PIER A", "Long Beach", "CA"),
   ("MATSON", "Long Beach", "CA"),
   ("OOCL", "Long Beach", "CA"),
   ("SSA", "Long Beach", "CA"),
   ("ITS CARSON", "Carson", "CA"),
   ("SHIPPERS TRANSPORT CARSON", "Carson", "CA"),
   ("ODW LOGISTICS", "Long Beach", "CA"),
   ("BNSF SAN BERNARDINO", "San Bernardino", "CA")]

/-- `US_STATES`: the fifty two-letter state codes. -/
def US_STATES : List String :=
  ["AL", "AK", "AZ", "AR", "CA", "CO", "CT", "DE", "FL", "GA",
   "HI", "ID", "IL", "IN", "IA", "KS", "KY", "LA", "ME", "MD",
   "MA", "MI", "MN", "MS", "MO", "MT", "NE", "NV", "NH", "NJ",
   "NM", "NY", "NC", "ND", "OH", "OK", "OR", "PA", "RI", "SC",
   "SD", "TN", "TX", "UT", "VT", "VA", "WA", "WV", "WI", "WY"]

/-- First-match lookup in `TERMINAL_CITY_MAP` (Python dict lookup; the keys
are distinct, so first-match equals dict semantics). -/
def lookupTerminal : List (String × String × String) → String → Option (String × String)
  | [], _ => none
  | (k, c, s) :: rest, key => if key = k then some (c, s) else lookupTerminal rest key

/-- The regular expression `^([A-Z]{2})\s+\d{5}` applied to one address token:
two ASCII capitals, then at least one whitespace character, then five digits;
returns the two-letter group on success.  Greedy whitespace matching is
equivalent to maximal munch here because no whitespace character is a digit. -/
def matchStateZip (p : String) : Option String :=
  match p.toList with
  | c1 :: c2 :: rest =>
    if isUpperAZ c1 && isUpperAZ c2 then
      let afterWs := rest.dropWhile isSpaceChar
      if (rest.takeWhile isSpaceChar) ≠ [] ∧ (afterWs.take 5).length = 5
          ∧ (afterWs.take 5).all Char.isDigit then
        some (String.mk [c1, c2])
      else none
    else none
  | _ => none

/-- The scan loop of `parse_city_state_from_address`: walk the comma-separated
tokens with the previous token at hand; on the first token whose state/zip
match succeeds, with the state in `US_STATES` and a preceding token available
(`i > 0`), return `(title(previous.strip()), state)`. -/
def findCityState : Option String → List String → String × String
  | _, [] => ("Unknown", "??")
  | prev, p :: rest =>
    match matchStateZip p, prev with
    | some st, some prior =>
      if st ∈ US_STATES then (pyTitle (pyStrip prior), st)
      else findCityState (some p) rest
    | some _, none => findCityState (some p) rest
    | none, _ => findCityState (some p) rest

/-- `parse_city_state_from_address`: absent/empty address gives the
`("Unknown", "??")` sentinel; otherwise split on commas, strip each part and
scan for a state/zip token. -/
def parse_city_state_from_address (address : String) : String × String :=
  if address = "" then ("Unknown", "??")
  else
    findCityState none
      (((splitOnChar ',' address.toList).map (fun p => String.mk (stripChars p))))

/-! ## Raw load records (the fields of the PortPro load object that
`data_engineering.py` reads; `Option` marks fields whose absence is
meaningful, plain `""`/`false` stands for an absent string/flag exactly as
`load.get(key, default)` does) -/

/-- One raw API load object.  `caller_id` models `load["caller"]["_id"]`
(empty when the `caller` sub-object is missing), `loadCompletedAt` and
`loadCompletedDate` model the completion timestamps with `""` for absent,
so that the Python truthiness chain `a or b or ""` is `if a ≠ "" then a else b`. -/
structure RawLoad where
  reference_number : String := ""
  type_of_load : String := ""
  callerName : Option String := none
  caller_id : String := ""
  shipperName : String := ""
  consigneeName : String := ""
  shipperAddress : String := ""
  consigneeAddress : String := ""
  totalAmount : Option ℚ := none
  totalWeight : Option ℚ := none
  totalMiles : Option ℚ := none
  status : String := ""
  containerNo : String := ""
  terminalHold : Bool := false
  custom : String := ""
  loadCompletedAt : String := ""
  loadCompletedDate : String := ""
  deriving DecidableEq

instance : Inhabited RawLoad := ⟨{}⟩

/-- `resolve_pickup_city`: address parse, then terminal-table lookup on the
upper-cased stripped shipper name, then the `" - "` suffix fallback with
default state `"CA"`, and finally the `("Unknown", "CA")` sentinel. -/
def resolve_pickup_city (load : RawLoad) : String × String :=
  let cs := parse_city_state_from_address load.shipperAddress
  if cs.1 ≠ "Unknown" then cs
  else
    let shipper_name := pyStrip (pyUpper load.shipperName)
    match lookupTerminal TERMINAL_CITY_MAP shipper_name with
    | some v => v
    | none =>
      if strHas " - " shipper_name then
        (pyTitle (pyStrip (afterFirst " - " shipper_name)), "CA")
      else ("Unknown", "CA")

/-- `resolve_delivery_city`: address parse, then the `" - "` suffix fallback
with default state `"CA"`, and finally the `("Unknown", "??")` sentinel
(no terminal-table step on the delivery side). -/
def resolve_delivery_city (load : RawLoad) : String × String :=
  let cs := parse_city_state_from_address load.consigneeAddress
  if cs.1 ≠ "Unknown" then cs
  else
    let consignee_name := pyStrip (pyUpper load.consigneeName)
    if strHas " - " consignee_name then
      (pyTitle (pyStrip (afterFirst " - " consignee_name)), "CA")
    else ("Unknown", "??")

/-! ## Dates

A calendar date is `(year, month, day)`; `daysFromCivil` is the standard
civil-calendar day-number bijection with `1970-01-01 ↦ 0`, so Python's
`date.weekday()` (Monday = 0) is `(dayNumber + 3) % 7`.  The source turns a
parsed date into the strings `week_start = strftime(dt - weekday days)` and
`month_start = strftime("%Y-%m-01")`; since `strftime("%Y-%m-%d")` is
injective on dates, the embedding keeps `week_start` as the Monday's day
number and `month_start` as the order-preserving injective key
`year * 100 + month`. -/

/-- A parsed calendar date. -/
structure Date where
  year : Int := 2024
  month : Nat := 1
  day : Nat := 1
  deriving DecidableEq

instance : Inhabited Date := ⟨{}⟩

/-- Leap-year test of the Gregorian calendar (`calendar.isleap`). -/
def isLeap (y : Int) : Bool :=
  (y % 4 = 0 && y % 100 ≠ 0) || y % 400 = 0

/-- Number of days in month `m` of year `y` (what `datetime` validates the
day-of-month against, and what the source's first-of-next-month subtraction
computes for the run-rate projector). -/
def monthLength (y : Int) (m : Nat) : Nat :=
  if m = 2 then (if isLeap y then 29 else 28)
  else if m = 4 ∨ m = 6 ∨ m = 9 ∨ m = 11 then 30
  else 31

/-- Day number of a civil date, `1970-01-01 ↦ 0` (Howard Hinnant's
`days_from_civil`, with explicit floor division). -/
def daysFromCivil (y : Int) (m d : Nat) : Int :=
  let y2 : Int := if m ≤ 2 then y - 1 else y
  let era : Int := Int.fdiv y2 400
  let yoe : Int := y2 - era * 400
  let mp : Nat := (m + 9) % 12
  let doy : Nat := (153 * mp + 2) / 5 + d - 1
  let doe : Int := yoe * 365 + Int.fdiv yoe 4 - Int.fdiv yoe 100 + (doy : Int)
  era * 146097 + doe - 719468

/-- Python `date.weekday()` under the day-number encoding: Monday = 0,
Sunday = 6. -/
def pyWeekday (d : Int) : Int :=
  (d + 3) % 7

/-- Numeric value of a digit string. -/
def digitsVal (l : List Char) : Nat :=
  l.foldl (fun a c => a * 10 + (c.toNat - 48)) 0

/-- `datetime.strptime(s, "%Y-%m-%d")`: exactly three dash-separated fields,
a four-digit year, a one-or-two-digit month in `1..12`, a one-or-two-digit
day in `1..monthLength` (the regular expression admits days up to 31 and the
`datetime` constructor then rejects days past the month's end; both failures
drop the record identically).  Nothing may remain unconsumed. -/
def parseYMD (s : String) : Option Date :=
  match splitOnChar '-' s.toList with
  | [ys, ms, ds] =>
    if ys.length = 4 ∧ ys.all Char.isDigit
        ∧ ms ≠ [] ∧ ms.length ≤ 2 ∧ ms.all Char.isDigit
        ∧ ds ≠ [] ∧ ds.length ≤ 2 ∧ ds.all Char.isDigit then
      let y : Int := (digitsVal ys : Int)
      let m : Nat := digitsVal ms
      let d : Nat := digitsVal ds
      if 1 ≤ m ∧ m ≤ 12 ∧ 1 ≤ d ∧ d ≤ monthLength y m then
        some { year := y, month := m, day := d }
      else none
    else none
  | _ => none

/-! ## Record Normalizer (`flatten_loads`, `data_engineering.py` section 3) -/

/-- One normalized (flattened) load row.  `completed_days` is the day number
of `completed_date`, `week_start` the day number of its Monday, and
`month_start` the `year * 100 + month` key of the `"%Y-%m-01"` string. -/
structure NormRecord where
  load_id : String := ""
  customer_name : String := ""
  customer_id : String := ""
  shipper_name : String := ""
  consignee_name : String := ""
  pickup_city : String := ""
  pickup_state : String := ""
  delivery_city : String := ""
  delivery_state : String := ""
  lane : String := ""
  bco_derived : String := ""
  pricing_total : ℚ := 0
  total_weight : ℚ := 0
  status : String := ""
  type_of_load : String := ""
  completed_days : Int := 0
  week_start : Int := 0
  month_start : Int := 0
  container_no : String := ""
  distance_miles : ℚ := 0
  exception_label : String := ""
  on_time_pickup : ℚ := 1
  on_time_delivery : ℚ := 1
  deriving DecidableEq

instance : Inhabited NormRecord := ⟨{}⟩

/-- `derive_bco`: IMPORT loads (or `"_M"` references) attribute to the
consignee, ROAD loads (or `"_R"` references) to the shipper, everything else
to the sentinel `"Direct"`; empty names fall back to `"Unknown BCO"`. -/
def derive_bco (load : RawLoad) : String :=
  if load.type_of_load = "IMPORT" ∨ strHas "_M" load.reference_number then
    (if load.consigneeName = "" then "Unknown BCO" else load.consigneeName)
  else if load.type_of_load = "ROAD" ∨ strHas "_R" load.reference_number then
    (if load.shipperName = "" then "Unknown BCO" else load.shipperName)
  else "Direct"

/-- `classify_exception`: terminal hold or a custom status equal to `"HOLD"`
(case-insensitively) is an `"Uncontrollable Event"`; anything else is `""`. -/
def classify_exception (load : RawLoad) : String :=
  if load.terminalHold = true ∨ pyUpper load.custom = "HOLD" then
    "Uncontrollable Event"
  else ""

/-- The completion-timestamp truthiness chain
`load.get("loadCompletedAt") or load.get("loadCompletedDate") or ""`. -/
def completedAtOf (load : RawLoad) : String :=
  if load.loadCompletedAt ≠ "" then load.loadCompletedAt else load.loadCompletedDate

/-- The record appended by the `flatten_loads` loop for a load whose
completion date parsed to `dt`. -/
def mkNormRecord (load : RawLoad) (dt : Date) : NormRecord :=
  let days := daysFromCivil dt.year dt.month dt.day
  let pickup := resolve_pickup_city load
  let delivery := resolve_delivery_city load
  { load_id := load.reference_number
    customer_name := load.callerName.getD "Unknown"
    customer_id := load.caller_id
    shipper_name := load.shipperName
    consignee_name := load.consigneeName
    pickup_city := pickup.1
    pickup_state := pickup.2
    delivery_city := delivery.1
    delivery_state := delivery.2
    lane := pickup.1 ++ ", " ++ pickup.2 ++ " → " ++ delivery.1 ++ ", " ++ delivery.2
    bco_derived := derive_bco load
    pricing_total := load.totalAmount.getD 0
    total_weight := load.totalWeight.getD 0
    status := load.status
    type_of_load := load.type_of_load
    completed_days := days
    week_start := days - pyWeekday days
    month_start := dt.year * 100 + (dt.month : Int)
    container_no := load.containerNo
    distance_miles := load.totalMiles.getD 0
    exception_label := classify_exception load
    on_time_pickup := 1
    on_time_delivery := 1 }

/-- The body of the `flatten_loads` loop for one raw load: `none` when the
load is skipped (`continue`), otherwise the normalized record appended to
`records` (the source binds `completed_at` once; it is `completedAtOf load`
here). -/
def normalizeLoad (load : RawLoad) : Option NormRecord :=
  if completedAtOf load = "" then none
  else
    match parseYMD ((completedAtOf load).take 10) with
    | none => none
    | some dt => some (mkNormRecord load dt)

/-- `flatten_loads`: one normalized record per load that carries a parseable
completion date; loads with no completion timestamp or an unparseable
`completed_at[:10]` are dropped (the append-or-`continue` loop, rendered as
`filterMap`). -/
def flatten_loads (raw : List RawLoad) : List NormRecord :=
  raw.filterMap normalizeLoad

/-- One raw API customer object (`_id`, `company_name`). -/
structure RawCustomer where
  id : String := ""
  company_name : Option String := none
  deriving DecidableEq

/-- One entity-master row. -/
structure MasterRec where
  id : String := ""
  name : String := ""
  tier : Int := 2
  is_broker : Bool := true
  deriving DecidableEq

instance : Inhabited MasterRec := ⟨{}⟩

/-- `build_customer_master`: every raw customer becomes a master row with
tier 2 and the broker flag set. -/
def build_customer_master (raw : List RawCustomer) : List MasterRec :=
  raw.map (fun c =>
    { id := c.id, name := c.company_name.getD "Unknown", tier := 2, is_broker := true })

/-! ## Rational models of Python numeric primitives -/

/-- Round half to even on rationals (Python `round` applied to a number whose
decimal expansion is exact, e.g. the already-1-decimal percent changes). -/
def roundHalfEven (q : ℚ) : ℤ :=
  let f := ⌊q⌋
  if q - f < 1/2 then f
  else if 1/2 < q - f then f + 1
  else if f % 2 = 0 then f else f + 1

/-- Python `round(q, n)` as an exact rational. -/
def pyRound (n : Nat) (q : ℚ) : ℚ :=
  (roundHalfEven (q * 10 ^ n) : ℚ) / 10 ^ n

/-- Python `int(q)`: truncation toward zero. -/
def pyInt (q : ℚ) : ℤ :=
  if 0 ≤ q then ⌊q⌋ else ⌈q⌉

/-- Mean of a rational list (meaningful on nonempty input). -/
def ratMean (l : List ℚ) : ℚ :=
  l.sum / (l.length : ℚ)

/-- Decimal digits of a natural number, most significant first (fuelled
recursion; the fuel `n + 1` always suffices). -/
def natDigits : Nat → Nat → List Char
  | 0, _ => []
  | fuel + 1, n =>
    if n < 10 then [Char.ofNat (48 + n)]
    else natDigits fuel (n / 10) ++ [Char.ofNat (48 + n % 10)]

/-- Decimal rendering of a natural number. -/
def natStr (n : Nat) : String :=
  String.mk (natDigits (n + 1) n)

/-- Decimal rendering of a rational that is an exact multiple of `1/10`,
with an explicit sign: the Python format `f"{c:+.1f}"`. -/
def fmtSigned1 (c : ℚ) : String :=
  let n := roundHalfEven (|c| * 10)
  let sign := if c < 0 then "-" else "+"
  sign ++ natStr (n.toNat / 10) ++ "." ++ natStr (n.toNat % 10)

/-! ## Period Aggregator (`_skeleton_join`, section 4 of the source) -/

/-- One aggregate row of the always-visible skeleton join: `otp`/`otd` are
`none` exactly where the pandas column holds the `NaN` "no data" sentinel. -/
structure AggRow where
  customer_name : String := ""
  customer_id : String := ""
  customer_tier : Int := 2
  period : Int := 0
  loads : Nat := 0
  revenue : ℚ := 0
  avg_revenue : ℚ := 0
  otp : Option ℚ := none
  otd : Option ℚ := none
  uncontrollable_events : Nat := 0
  deriving DecidableEq

instance : Inhabited AggRow := ⟨{}⟩

/-- Ascending insertion sort on period keys (`sorted(...)`). -/
def sortInts (l : List Int) : List Int :=
  List.insertionSort (fun a b => a ≤ b) l

/-- `sorted(load_df[period_col].unique())`: the distinct period keys in
ascending order. -/
def sortedPeriods (l : List Int) : List Int :=
  sortInts l.dedup

/-- One cell of the skeleton join: the left-join of the per-(entity, period)
aggregation onto the skeleton row `(cust, per)`, with the `fillna` lines
applied — a missing group fills counts and sums to zero and leaves the mean
on-time rates as the `NaN` sentinel (`none`). -/
def aggCell (loads : List NormRecord) (perOf : NormRecord → Int) (per : Int)
    (cust : MasterRec) : AggRow :=
  let grp := loads.filter (fun r => r.customer_name == cust.name && perOf r == per)
  { customer_name := cust.name
    customer_id := cust.id
    customer_tier := cust.tier
    period := per
    loads := grp.length
    revenue := (grp.map (fun r => r.pricing_total)).sum
    avg_revenue :=
      if grp.length = 0 then 0 else (grp.map (fun r => r.pricing_total)).sum / (grp.length : ℚ)
    otp := if grp.length = 0 then none else some (ratMean (grp.map (fun r => r.on_time_pickup)))
    otd := if grp.length = 0 then none else some (ratMean (grp.map (fun r => r.on_time_delivery)))
    uncontrollable_events := (grp.filter (fun r => r.exception_label == "Uncontrollable Event")).length }

/-- `_skeleton_join`: empty input (either side) gives an empty table;
otherwise every distinct period in the load data, in ascending order, is
crossed with every master entity, and the per-pair aggregates are left-joined
onto that skeleton (realized cell-by-cell by `aggCell`). -/
def skeleton_join (loads : List NormRecord) (master : List MasterRec)
    (perOf : NormRecord → Int) : List AggRow :=
  if loads.isEmpty || master.isEmpty then []
  else
    (sortedPeriods (loads.map perOf)).flatMap
      (fun per => master.map (aggCell loads perOf per))

/-! ## Trend & Change Engine (`_add_wow_and_flags`) -/

/-- An aggregate row with the derived trend columns. -/
structure WowRow where
  base : AggRow := {}
  prev_loads : Option Nat := none
  change_pct : Option ℚ := none
  change_label : String := ""
  trailing_4_avg : Option ℚ := none
  volume_trend : String := ""
  service_risk : String := ""
  deriving DecidableEq

instance : Inhabited WowRow := ⟨{}⟩

/-- Annotate one row given the previous row's load count (`shift(1)`; `none`
on the first row of the entity's series) and the reversed list of all earlier
load counts in the series (`hist`; the shifted 4-rolling mean reads its first
four entries).  Mirrors the row-wise lambdas of `_add_wow_and_flags`; the
float thresholds `1.10`, `0.90` are the exact rationals `11/10`, `9/10`. -/
def mkWow (prev : Option Nat) (hist : List Nat) (r : AggRow) : WowRow :=
  let change : Option ℚ :=
    match prev with
    | some p =>
      if 0 < p then some (pyRound 1 ((((r.loads : ℚ)) - (p : ℚ)) / (p : ℚ) * 100))
      else none
    | none => none
  let label : String :=
    match prev with
    | none => "NEW"
    | some _ =>
      match change with
      | some c => fmtSigned1 c
      | none => "0"
  let t4 : Option ℚ :=
    if hist.isEmpty then none
    else some (ratMean ((hist.take 4).map (fun n => (n : ℚ))))
  let trend : String :=
    match t4 with
    | some t =>
      if 0 < t ∧ t * (11/10) < (r.loads : ℚ) then "UP"
      else if 0 < t ∧ (r.loads : ℚ) < t * (9/10) then "DOWN"
      else if r.loads = 0 ∧ t = 0 then "N/A"
      else "STABLE"
    | none => if r.loads = 0 then "N/A" else "STABLE"
  let srisk : String :=
    match r.otd with
    | some x => if x < 9/10 then "AT RISK" else "OK"
    | none => "N/A"
  { base := r, prev_loads := prev, change_pct := change, change_label := label,
    trailing_4_avg := t4, volume_trend := trend, service_risk := srisk }

/-- Walk one entity's period-ascending series, threading the previous load
count and the reversed history (the `groupby(...).shift(1)` state). -/
def annotateGo (prev : Option Nat) (hist : List Nat) : List AggRow → List WowRow
  | [] => []
  | r :: rest => mkWow prev hist r :: annotateGo (some r.loads) (r.loads :: hist) rest

/-- The Trend & Change Engine on one entity's period series. -/
def annotateSeries (rows : List AggRow) : List WowRow :=
  annotateGo none [] rows

/-- Lexicographic `≤` on character lists (Python string comparison). -/
def charsLe : List Char → List Char → Bool
  | [], _ => true
  | _ :: _, [] => false
  | a :: as, b :: bs => if a < b then true else if b < a then false else charsLe as bs

/-- String `≤` used to order the entity group keys. -/
def strLe (s t : String) : Bool :=
  charsLe s.toList t.toList

/-- Sort one entity's rows by period ascending (the period component of
`sort_values(["customer_name", period_col])`). -/
def periodSortRows (rows : List AggRow) : List AggRow :=
  List.insertionSort (fun a b => a.period ≤ b.period) rows

/-- `_add_wow_and_flags`: sort by (entity, period) and annotate each entity's
series independently (`groupby("customer_name")` + row-wise lambdas),
realized as: entities in ascending name order, each entity's rows in
ascending period order, each series annotated by `annotateSeries`. -/
def add_wow_and_flags (df : List AggRow) : List WowRow :=
  let customers := List.insertionSort (fun a b => strLe a b = true)
    ((df.map (fun r => r.customer_name)).dedup)
  customers.flatMap
    (fun c => annotateSeries (periodSortRows (df.filter (fun r => r.customer_name == c))))

/-! ## Run-Rate Projector (`_add_run_rate`) -/

/-- A monthly row with the run-rate projection columns. -/
structure RunRateRow where
  base : WowRow := {}
  is_current_month : Bool := false
  run_rate_loads : Int := 0
  run_rate_revenue : ℚ := 0
  deriving DecidableEq

instance : Inhabited RunRateRow := ⟨{}⟩

/-- The `"%Y-%m-01"` key of `today`'s month under the month-key encoding. -/
def currentMonthKey (today : Date) : Int :=
  today.year * 100 + (today.month : Int)

/-- `_add_run_rate` with the implicit `datetime.now()` made an explicit
`today` input (spec §5/§9).  `days_elapsed = today.day`;
`days_in_month = monthLength`, the value the source obtains by subtracting
the first of this month from the first of the next.  For current-month rows
with `days_elapsed > 0`, loads project through `int(...)` (truncation) and
revenue through `round(..., 0)`; every other row, and every row when
`days_elapsed = 0`, passes through unchanged.  `runRateRowFor` is the
per-row body of the `apply` lambdas. -/
def runRateRowFor (today : Date) (r : WowRow) : RunRateRow :=
  let de := today.day
  let dim := monthLength today.year today.month
  let isCur := r.base.period == currentMonthKey today
  if 0 < de then
    { base := r, is_current_month := isCur,
      run_rate_loads :=
        if isCur then pyInt ((r.base.loads : ℚ) / (de : ℚ) * (dim : ℚ))
        else (r.base.loads : Int),
      run_rate_revenue :=
        if isCur then pyRound 0 (r.base.revenue / (de : ℚ) * (dim : ℚ))
        else r.base.revenue }
  else
    { base := r, is_current_month := isCur,
      run_rate_loads := (r.base.loads : Int),
      run_rate_revenue := r.base.revenue }

def add_run_rate (today : Date) (monthly : List WowRow) : List RunRateRow :=
  if monthly.isEmpty then []
  else monthly.map (runRateRowFor today)

/-! ## Risk Flag Engine (`compute_risk_flags`) -/

/-- One flagged entity.  The source stores the triggered rule names joined
with `" | "`; the embedding keeps the list itself alongside the joined
string so that properties of individual flags can be stated. -/
structure RiskRow where
  customer_name : String := ""
  weekly_revenue : ℚ := 0
  weekly_loads : Nat := 0
  wow_change_pct : ℚ := 0
  on_time_delivery_pct : Option ℚ := none
  flags : List String := []
  risk_flag : String := ""
  deriving DecidableEq

instance : Inhabited RiskRow := ⟨{}⟩

/-- Join a list of strings with a separator (Python `sep.join`). -/
def joinSep (sep : String) : List String → String
  | [] => ""
  | [x] => x
  | x :: xs => x ++ sep ++ joinSep sep xs

/-- `sorted(weekly_customer["week_start"].unique())`. -/
def allWeeksOf (weekly : List WowRow) : List Int :=
  sortedPeriods (weekly.map (fun r => r.base.period))

/-- The trailing window: the up-to-12 distinct weeks strictly before the
target week by position in the ascending distinct-week list
(`all_weeks[max(0, idx - 12):idx]`, empty when the target week is first or
absent). -/
def trailingWeeksOf (weekly : List WowRow) (w : Int) : List Int :=
  let aw := allWeeksOf weekly
  if w ∈ aw then
    let i := aw.indexOf w
    if 0 < i then (aw.take i).drop (i - 12) else []
  else []

/-- Summed loads of entity `c` over the trailing window
(`trailing.groupby("customer_name")["loads"].sum()` with default 0). -/
def trailingSumOf (weekly : List WowRow) (w : Int) (c : String) : Nat :=
  ((weekly.filter (fun r =>
      (trailingWeeksOf weekly w).contains r.base.period && r.base.customer_name == c)).map
    (fun r => r.base.loads)).sum

/-- Whether an optional on-time-delivery rate is defined and below 90%
(`pd.notna(otd) and otd < 0.90`). -/
def poorOTD : Option ℚ → Bool
  | some x => decide (x < 9/10)
  | none => false

/-- Whether the trailing-4 average is defined, positive, and current loads
fall below 70% of it. -/
def belowT4 (loads : Nat) : Option ℚ → Bool
  | some t => decide (0 < t) && decide ((loads : ℚ) < t * (7/10))
  | none => false

/-- The five risk rules in the source's fixed evaluation order, producing the
flag list for one current-week row.  `change` is `change_pct` with the `NaN`
sentinel replaced by 0 (the source's `row["change_pct"] if pd.notna(...) else 0`,
after which its `pd.notna(change)` guards are identically true). -/
def flagsFor (totalRev : ℚ) (trailing_had : Nat) (r : WowRow) : List String :=
  let revShare : ℚ := if 0 < totalRev then r.base.revenue / totalRev * 100 else 0
  let change : ℚ := r.change_pct.getD 0
  (if r.base.loads = 0 ∧ 0 < trailing_had then ["STALE ACCOUNT (0 LOADS)"] else [])
    ++ (if 5 ≤ revShare ∧ poorOTD r.base.otd = true then ["HIGH REVENUE + POOR SERVICE"] else [])
    ++ (if 5 ≤ revShare ∧ change < -20 then ["HIGH REVENUE + DECLINING VOLUME"] else [])
    ++ (if change < -30 then ["SHARP WOW DROP"] else [])
    ++ (if belowT4 r.base.loads r.trailing_4_avg = true then ["BELOW TRAILING AVERAGE"] else [])

/-- The body of the `compute_risk_flags` loop for one current-week row:
`none` when no rule fires, otherwise the emitted risk record. -/
def riskRowFor (weekly : List WowRow) (w : Int) (totalRev : ℚ) (r : WowRow) : Option RiskRow :=
  let flags := flagsFor totalRev (trailingSumOf weekly w r.base.customer_name) r
  if flags.isEmpty then none
  else some
    { customer_name := r.base.customer_name
      weekly_revenue := r.base.revenue
      weekly_loads := r.base.loads
      wow_change_pct := r.change_pct.getD 0
      on_time_delivery_pct := r.base.otd.map (fun x => pyRound 1 (x * 100))
      flags := flags
      risk_flag := joinSep " | " flags }

/-- `compute_risk_flags`: restrict the weekly table to the selected week,
compute revenue shares against that week's total, evaluate the five rules per
entity, and emit only entities with at least one flag. -/
def compute_risk_flags (weekly : List WowRow) (w : Int) : List RiskRow :=
  if weekly.isEmpty then []
  else
    let current := weekly.filter (fun r => r.base.period == w)
    if current.isEmpty then []
    else
      let totalRev := (current.map (fun r => r.base.revenue)).sum
      current.filterMap (riskRowFor weekly w totalRev)

/-! ## Lane aggregation (`compute_lane_risks` and the weekly lane table) -/

/-- One (entity, lane) aggregate row for a single week. -/
structure LaneCustRow where
  customer_name : String := ""
  lane : String := ""
  volume : Nat := 0
  revenue : ℚ := 0
  otd : ℚ := 0
  otd_pct : ℚ := 0
  deriving DecidableEq

/-- Order for `sort_values(["customer_name", "revenue"], ascending=[True, False])`. -/
def laneCustLe (a b : LaneCustRow) : Bool :=
  if a.customer_name = b.customer_name then decide (b.revenue ≤ a.revenue)
  else strLe a.customer_name b.customer_name

/-- `compute_lane_risks`: group the selected week's normalized loads by
(entity, lane), aggregate volume, revenue and mean on-time-delivery (every
group is nonempty, so the mean is always defined), and sort by entity
ascending then revenue descending. -/
def compute_lane_risks (df : List NormRecord) (w : Int) : List LaneCustRow :=
  if df.isEmpty then []
  else
    let week_loads := df.filter (fun r => r.week_start == w)
    if week_loads.isEmpty then []
    else
      let keys := (week_loads.map (fun r => (r.customer_name, r.lane))).dedup
      let rows := keys.map (fun k =>
        let grp := week_loads.filter (fun r => r.customer_name == k.1 && r.lane == k.2)
        { customer_name := k.1
          lane := k.2
          volume := grp.length
          revenue := (grp.map (fun r => r.pricing_total)).sum
          otd := ratMean (grp.map (fun r => r.on_time_delivery))
          otd_pct := pyRound 1 (ratMean (grp.map (fun r => r.on_time_delivery)) * 100) } )
      List.insertionSort (fun a b => laneCustLe a b = true) rows

/-- One (entity, lane, week) aggregate row of the weekly lane table. -/
structure LaneRow where
  customer_name : String := ""
  lane : String := ""
  week_start : Int := 0
  volume : Nat := 0
  revenue : ℚ := 0
  otd : ℚ := 0
  otd_pct : ℚ := 0
  deriving DecidableEq

/-- The weekly lane table of `transform_loads`
(`groupby(["customer_name", "lane", "week_start"])`). -/
def laneTable (df : List NormRecord) : List LaneRow :=
  let keys := (df.map (fun r => (r.customer_name, r.lane, r.week_start))).dedup
  keys.map (fun k =>
    let grp := df.filter (fun r =>
      r.customer_name == k.1 && r.lane == k.2.1 && r.week_start == k.2.2)
    { customer_name := k.1
      lane := k.2.1
      week_start := k.2.2
      volume := grp.length
      revenue := (grp.map (fun r => r.pricing_total)).sum
      otd := ratMean (grp.map (fun r => r.on_time_delivery))
      otd_pct := pyRound 1 (ratMean (grp.map (fun r => r.on_time_delivery)) * 100) })

/-! ## Full transform pipeline (`transform_loads`, live-API list path)

The source accepts either the raw API list or an already-flattened sample
DataFrame; the embedding models the list path, on which `flatten_loads` has
already restricted to completed loads (`completed_df = df`). -/

/-- The five tables `transform_loads` returns. -/
structure TransformOut where
  cleaned : List NormRecord := []
  weekly : List WowRow := []
  monthly : List RunRateRow := []
  lanes : List LaneRow := []
  customer_master : List MasterRec := []

/-- `transform_loads` on raw API loads and customers, with the run-rate
projector's `datetime.now()` an explicit `today` input.  Weekly and monthly
skeleton joins feed the Trend & Change Engine (a no-op on an empty join, as
in the source's emptiness guard), and the monthly table additionally passes
through the Run-Rate Projector; the lane table is built only when completed
loads exist. -/
def transform_loads (raw : List RawLoad) (customers : List RawCustomer)
    (today : Date) : TransformOut :=
  let df := flatten_loads raw
  let customer_master := build_customer_master customers
  let completed_df := df
  let weekly := add_wow_and_flags (skeleton_join completed_df customer_master (fun r => r.week_start))
  let monthly := add_run_rate today
    (add_wow_and_flags (skeleton_join completed_df customer_master (fun r => r.month_start)))
  let lanes := if completed_df.isEmpty then [] else laneTable completed_df
  { cleaned := completed_df
    weekly := weekly
    monthly := monthly
    lanes := lanes
    customer_master := customer_master }

/-! ## General lemmas about the embedded operations -/

/-- Subtracting the weekday lands on a Monday. -/
theorem pyWeekday_sub_self (d : Int) : pyWeekday (d - pyWeekday d) = 0 := by
  unfold pyWeekday
  have h1 : d - (d + 3) % 7 + 3 = d + 3 - (d + 3) % 7 := by ring
  rw [h1, Int.sub_emod, Int.emod_emod_of_dvd _ dvd_rfl, sub_self, Int.zero_emod]

/-- The Monday of a date's week is not after the date. -/
theorem sub_pyWeekday_le (d : Int) : d - pyWeekday d ≤ d := by
  unfold pyWeekday
  have h := Int.emod_nonneg (d + 3) (by norm_num : (7 : ℤ) ≠ 0)
  omega

theorem annotateGo_length (l : List AggRow) :
    ∀ prev hist, (annotateGo prev hist l).length = l.length := by
  induction l with
  | nil => intro prev hist; rfl
  | cons r rest ih => intro prev hist; simp [annotateGo, ih]

theorem annotateSeries_length (l : List AggRow) :
    (annotateSeries l).length = l.length :=
  annotateGo_length l none []

theorem countP_flatMap {α β : Type} (f : α → List β) (p : β → Bool) :
    ∀ l : List α, (l.flatMap f).countP p = (l.map (fun x => (f x).countP p)).sum := by
  intro l
  induction l with
  | nil => rfl
  | cons a t ih => simp [List.flatMap_cons, List.countP_append, ih]

theorem aggCell_customer_name (loads : List NormRecord) (perOf : NormRecord → Int)
    (per : Int) (cust : MasterRec) :
    (aggCell loads perOf per cust).customer_name = cust.name := rfl

theorem aggCell_period (loads : List NormRecord) (perOf : NormRecord → Int)
    (per : Int) (cust : MasterRec) :
    (aggCell loads perOf per cust).period = per := rfl

/-- Row membership in the skeleton join. -/
theorem mem_skeleton_join {loads : List NormRecord} {master : List MasterRec}
    {perOf : NormRecord → Int} {row : AggRow} :
    row ∈ skeleton_join loads master perOf ↔
      (loads.isEmpty = false ∧ master.isEmpty = false)
      ∧ ∃ per ∈ sortedPeriods (loads.map perOf), ∃ cust ∈ master,
          row = aggCell loads perOf per cust := by
  unfold skeleton_join
  rcases hl : loads.isEmpty with _ | _
  · rcases hm : master.isEmpty with _ | _
    · simp [hl, hm, List.mem_flatMap, List.mem_map]
      constructor
      · rintro ⟨per, hper, cust, hcust, hrow⟩
        exact ⟨per, hper, cust, hcust, hrow.symm⟩
      · rintro ⟨per, hper, cust, hcust, hrow⟩
        exact ⟨per, hper, cust, hcust, hrow.symm⟩
    · simp [hl, hm]
  · simp [hl]

theorem count_sortedPeriods {l : List Int} {p : Int} (hp : p ∈ l) :
    (sortedPeriods l).count p = 1 := by
  have hperm := List.perm_insertionSort (fun a b => a ≤ b) l.dedup
  unfold sortedPeriods sortInts
  rw [hperm.count_eq]
  exact List.count_eq_one_of_mem (List.nodup_dedup l) (List.mem_dedup.mpr hp)

theorem mem_sortedPeriods {l : List Int} {p : Int} :
    p ∈ sortedPeriods l ↔ p ∈ l := by
  unfold sortedPeriods sortInts
  rw [(List.perm_insertionSort (fun a b => a ≤ b) l.dedup).mem_iff]
  exact List.mem_dedup

theorem sum_map_count_one {l : List Int} {g : Int → Nat} {p : Int}
    (hc : l.count p = 1) (h1 : g p = 1) (h0 : ∀ x, x ≠ p → g x = 0) :
    (l.map g).sum = 1 := by
  induction l with
  | nil => simp at hc
  | cons a t ih =>
    rw [List.count_cons] at hc
    by_cases ha : a = p
    · subst ha
      simp only [beq_self_eq_true, if_true] at hc
      have ht : t.count a = 0 := by omega
      have : (t.map g).sum = 0 := by
        apply List.sum_eq_zero
        intro x hx
        obtain ⟨y, hy, hxy⟩ := List.mem_map.mp hx
        have hya : y ≠ a := by
          intro he; subst he
          exact absurd (List.count_pos_iff.mpr hy) (by omega)
        rw [← hxy]; exact h0 y hya
      simp [this, h1]
    · have : (a == p) = false := beq_eq_false_iff_ne.mpr ha
      rw [this] at hc
      simp at hc
      simp only [List.map_cons, List.sum_cons, h0 a ha, zero_add]
      exact ih (by omega)

theorem mkNormRecord_completed_days (load : RawLoad) (dt : Date) :
    (mkNormRecord load dt).completed_days = daysFromCivil dt.year dt.month dt.day := rfl

theorem mkNormRecord_week_start (load : RawLoad) (dt : Date) :
    (mkNormRecord load dt).week_start
      = daysFromCivil dt.year dt.month dt.day
        - pyWeekday (daysFromCivil dt.year dt.month dt.day) := rfl

theorem mkNormRecord_on_time_pickup (load : RawLoad) (dt : Date) :
    (mkNormRecord load dt).on_time_pickup = 1 := rfl

theorem mkNormRecord_on_time_delivery (load : RawLoad) (dt : Date) :
    (mkNormRecord load dt).on_time_delivery = 1 := rfl

/-- What a successful normalization pins down about the emitted record. -/
theorem normalizeLoad_some {load : RawLoad} {rec : NormRecord}
    (h : normalizeLoad load = some rec) :
    completedAtOf load ≠ ""
    ∧ ∃ dt, parseYMD ((completedAtOf load).take 10) = some dt
        ∧ rec.completed_days = daysFromCivil dt.year dt.month dt.day
        ∧ rec.week_start = rec.completed_days - pyWeekday rec.completed_days := by
  simp only [normalizeLoad] at h
  by_cases hc : completedAtOf load = ""
  · rw [if_pos hc] at h; exact absurd h (by simp)
  · rw [if_neg hc] at h
    rcases hp : parseYMD ((completedAtOf load).take 10) with _ | dt
    · rw [hp] at h; exact absurd h (by simp)
    · rw [hp] at h
      have hrec := Option.some.inj h
      refine ⟨hc, dt, rfl, ?_, ?_⟩
      · rw [← hrec, mkNormRecord_completed_days]
      · rw [← hrec, mkNormRecord_week_start, mkNormRecord_completed_days]

/-- A load with no completion timestamp, or an unparseable one, normalizes to
nothing. -/
theorem normalizeLoad_none {load : RawLoad}
    (h : completedAtOf load = "" ∨ parseYMD ((completedAtOf load).take 10) = none) :
    normalizeLoad load = none := by
  simp only [normalizeLoad]
  by_cases hc : completedAtOf load = ""
  · rw [if_pos hc]
  · rw [if_neg hc]
    rcases h with hempty | hfail
    · exact absurd hempty hc
    · rw [hfail]

/-- Every emitted on-time flag is the constant 1. -/
theorem normalizeLoad_on_time {load : RawLoad} {rec : NormRecord}
    (h : normalizeLoad load = some rec) :
    rec.on_time_pickup = 1 ∧ rec.on_time_delivery = 1 := by
  simp only [normalizeLoad] at h
  by_cases hc : completedAtOf load = ""
  · rw [if_pos hc] at h; exact absurd h (by simp)
  · rw [if_neg hc] at h
    rcases hp : parseYMD ((completedAtOf load).take 10) with _ | dt
    · rw [hp] at h; exact absurd h (by simp)
    · rw [hp] at h
      have hrec := Option.some.inj h
      exact ⟨by rw [← hrec, mkNormRecord_on_time_pickup],
        by rw [← hrec, mkNormRecord_on_time_delivery]⟩

/-! ## Claim C7 — Location Resolver fallback -/

/-- C7, counterexample: the Location Resolver is total and deterministic, but
the two sides do NOT share one sentinel state.  On a load where nothing
resolves on either side, the pickup resolver returns `("Unknown", "CA")`
while the delivery resolver returns `("Unknown", "??")` — different sentinel
states, refuting the claim that the pair `("Unknown", sentinel-state)` has
the same sentinel state value on both the pickup and delivery sides. -/
theorem location_sentinel_counterexample :
    resolve_pickup_city {} = ("Unknown", "CA")
    ∧ resolve_delivery_city {} = ("Unknown", "??")
    ∧ (resolve_pickup_city {}).2 ≠ (resolve_delivery_city {}).2 := by
  refine ⟨by decide, by decide, by decide⟩

/-- C7, amended: the Location Resolver (a pure function, hence total and
deterministic) degrades to `("Unknown", sentinel-state)` whenever neither
the comma-separated address parse, nor the terminal-name lookup, nor the
`" - "` separator fallback resolves a location — but the sentinel state is
`"CA"` on the pickup side and `"??"` on the delivery side (the delivery side
also never consults the terminal table). -/
theorem location_fallback_spec (load : RawLoad)
    (hp1 : (parse_city_state_from_address load.shipperAddress).1 = "Unknown")
    (hp2 : lookupTerminal TERMINAL_CITY_MAP (pyStrip (pyUpper load.shipperName)) = none)
    (hp3 : strHas " - " (pyStrip (pyUpper load.shipperName)) = false)
    (hd1 : (parse_city_state_from_address load.consigneeAddress).1 = "Unknown")
    (hd2 : strHas " - " (pyStrip (pyUpper load.consigneeName)) = false) :
    resolve_pickup_city load = ("Unknown", "CA")
    ∧ resolve_delivery_city load = ("Unknown", "??") := by
  constructor
  · unfold resolve_pickup_city
    simp only [hp1, hp2, hp3]
    have hpair : parse_city_state_from_address load.shipperAddress
        = ("Unknown", (parse_city_state_from_address load.shipperAddress).2) := by
      rw [← hp1]
    rw [hpair]
    simp [hp2, hp3]
  · unfold resolve_delivery_city
    have hpair : parse_city_state_from_address load.consigneeAddress
        = ("Unknown", (parse_city_state_from_address load.consigneeAddress).2) := by
      rw [← hd1]
    rw [hpair]
    simp [hd2]

/-- Witness for `location_fallback_spec` at the all-empty load. -/
theorem location_fallback_spec_witness :
    ((parse_city_state_from_address (RawLoad.shipperAddress {})).1 = "Unknown")
    ∧ resolve_pickup_city {} = ("Unknown", "CA")
    ∧ resolve_delivery_city {} = ("Unknown", "??") := by
  have h := location_fallback_spec {} (by decide) (by decide) (by decide) (by decide) (by decide)
  exact ⟨by decide, h.1, h.2⟩

/-! ## Claim C8 — empty input gives empty outputs everywhere -/

/-- C8: with zero raw loads, every derived table — normalized loads, weekly
aggregates, monthly aggregates, lane aggregates, risk flags, lane risks — is
empty; every stage is a total function, so no stage can raise on empty
input. -/
theorem empty_input_all_empty (customers : List RawCustomer) (today : Date) (w : Int) :
    (transform_loads [] customers today).cleaned = []
    ∧ (transform_loads [] customers today).weekly = []
    ∧ (transform_loads [] customers today).monthly = []
    ∧ (transform_loads [] customers today).lanes = []
    ∧ compute_risk_flags (transform_loads [] customers today).weekly w = []
    ∧ compute_lane_risks (transform_loads [] customers today).cleaned w = [] :=
  ⟨rfl, rfl, rfl, rfl, rfl, rfl⟩

/-! ## Claim C3 — Record Normalizer dates -/

/-- C3: every record emitted by the Record Normalizer has a `week_start` on a
Monday (`pyWeekday = 0`) that is not after its completion date, and its
completion day number comes from a successfully parsed completion timestamp
of some input load; a load whose completion-timestamp chain is empty, or
whose first ten characters fail to parse as a date, contributes no record. -/
theorem normalizer_dates_spec (raws : List RawLoad) :
    (∀ rec ∈ flatten_loads raws,
        pyWeekday rec.week_start = 0
        ∧ rec.week_start ≤ rec.completed_days
        ∧ ∃ load ∈ raws, completedAtOf load ≠ ""
            ∧ ∃ dt, parseYMD ((completedAtOf load).take 10) = some dt
                ∧ rec.completed_days = daysFromCivil dt.year dt.month dt.day)
    ∧ ∀ load rest,
        (completedAtOf load = "" ∨ parseYMD ((completedAtOf load).take 10) = none) →
        flatten_loads (load :: rest) = flatten_loads rest := by
  constructor
  · intro rec hrec
    obtain ⟨load, hload, hsome⟩ := List.mem_filterMap.mp hrec
    obtain ⟨hc, dt, hp, hdays, hweek⟩ := normalizeLoad_some hsome
    refine ⟨?_, ?_, load, hload, hc, dt, hp, hdays⟩
    · rw [hweek]; exact pyWeekday_sub_self _
    · rw [hweek]; exact sub_pyWeekday_le _
  · intro load rest hdrop
    show (load :: rest).filterMap normalizeLoad = rest.filterMap normalizeLoad
    rw [List.filterMap_cons, normalizeLoad_none hdrop]

/-- A load with a completion timestamp, used to witness the normalizer. -/
def sampleLoad : RawLoad :=
  { loadCompletedAt := "2024-03-15T10:00:00Z" }

/-- Witness for `normalizer_dates_spec`: the record produced from
`sampleLoad` really exists and lands on a Monday at or before its completion
date. -/
theorem normalizer_dates_spec_witness :
    (flatten_loads [sampleLoad]).headI ∈ flatten_loads [sampleLoad]
    ∧ pyWeekday ((flatten_loads [sampleLoad]).headI).week_start = 0
    ∧ ((flatten_loads [sampleLoad]).headI).week_start
        ≤ ((flatten_loads [sampleLoad]).headI).completed_days := by
  have hm : (flatten_loads [sampleLoad]).headI ∈ flatten_loads [sampleLoad] := by decide
  obtain ⟨h1, h2, _⟩ := (normalizer_dates_spec [sampleLoad]).1 _ hm
  exact ⟨hm, h1, h2⟩

/-! ## Claim C2 — Trend & Change Engine -/

/-- Each output position of `annotateGo` is `mkWow` of the matching input
row, the previous row's loads, and the reversed history. -/
theorem annotateGo_getElem :
    ∀ (l : List AggRow) (prev : Option Nat) (hist : List Nat) (i : Nat)
      (h : i < l.length) (h2 : i < (annotateGo prev hist l).length),
      (annotateGo prev hist l)[i]
        = mkWow (if i = 0 then prev else some ((l[i - 1]).loads))
            (((l.take i).map (fun r => r.loads)).reverse ++ hist) (l[i]) := by
  intro l
  induction l with
  | nil => intro prev hist i h h2; simp at h
  | cons r rest ih =>
    intro prev hist i h h2
    match i with
    | 0 => simp [annotateGo]
    | j + 1 =>
      have hj : j < rest.length := by simpa using h
      have hj2 : j < (annotateGo (some r.loads) (r.loads :: hist) rest).length := by
        rw [annotateGo_length]; exact hj
      show (annotateGo (some r.loads) (r.loads :: hist) rest)[j] = _
      rw [ih (some r.loads) (r.loads :: hist) j hj hj2]
      match j with
      | 0 => simp
      | k + 1 =>
        have hk : k < rest.length := by omega
        simp [List.take_succ_cons, List.getElem_cons_succ]

/-- C2, counterexample: a two-period series in which the first period has
zero loads.  The second row's previous-period count is a present zero, and
the engine labels it `"0"`, not `"NEW"` — refuting the claim that the label
is `"NEW"` when the previous period's load count was zero. -/
theorem trend_change_label_counterexample :
    ((add_wow_and_flags
        [{ customer_name := "A", period := 0, loads := 0 },
         { customer_name := "A", period := 1, loads := 5 }]).getD 1 default).prev_loads
      = some 0
    ∧ ((add_wow_and_flags
        [{ customer_name := "A", period := 0, loads := 0 },
         { customer_name := "A", period := 1, loads := 5 }]).getD 1 default).change_pct
      = none
    ∧ ((add_wow_and_flags
        [{ customer_name := "A", period := 0, loads := 0 },
         { customer_name := "A", period := 1, loads := 5 }]).getD 1 default).change_label
      = "0"
    ∧ "0" ≠ "NEW" := by
  refine ⟨by decide, by decide, by decide, by decide⟩

/-- C2, amended: in an entity's period series, the percent change is
`round((current − previous) / previous × 100, 1)` whenever a previous period
exists with nonzero loads; it is undefined (`none`) both when no previous
period exists and when the previous period had zero loads — but the change
label is `"NEW"` only in the no-previous-period case; a present zero
previous count yields label `"0"`. -/
theorem trend_change_engine_spec (rows : List AggRow) (i : Nat)
    (h : i < rows.length) (h2 : i < (annotateSeries rows).length) :
    ((annotateSeries rows)[i]).prev_loads
      = (if i = 0 then none else some ((rows[i - 1]).loads))
    ∧ (i = 0 →
        ((annotateSeries rows)[i]).change_pct = none
        ∧ ((annotateSeries rows)[i]).change_label = "NEW")
    ∧ ∀ j, ∀ _ : i = j + 1, j < rows.length →
        (0 < (rows[j]).loads →
          ((annotateSeries rows)[i]).change_pct
            = some (pyRound 1
                ((((rows[i]).loads : ℚ) - ((rows[j]).loads : ℚ)) / ((rows[j]).loads : ℚ) * 100)))
        ∧ ((rows[j]).loads = 0 →
          ((annotateSeries rows)[i]).change_pct = none
          ∧ ((annotateSeries rows)[i]).change_label = "0") := by
  have hrw : (annotateSeries rows)[i]
      = mkWow (if i = 0 then none else some ((rows[i - 1]).loads))
          (((rows.take i).map (fun r => r.loads)).reverse ++ []) (rows[i]) :=
    annotateGo_getElem rows none [] i h h2
  rw [hrw]
  refine ⟨rfl, ?_, ?_⟩
  · intro hi
    subst hi
    exact ⟨rfl, rfl⟩
  · intro j hij hjlen
    subst hij
    have hred : (if j + 1 = 0 then (none : Option Nat) else some ((rows[j + 1 - 1]).loads))
        = some ((rows[j]).loads) := by simp
    rw [hred]
    constructor
    · intro hpos
      show (mkWow (some ((rows[j]).loads)) _ _).change_pct = _
      simp only [mkWow]
      rw [if_pos hpos]
    · intro hzero
      rw [hzero]
      exact ⟨rfl, rfl⟩

/-- Witness for `trend_change_engine_spec` on the two-period series used in
the counterexample. -/
theorem trend_change_engine_spec_witness :
    1 < ([{ customer_name := "A", period := 0, loads := 0 },
          { customer_name := "A", period := 1, loads := 5 }] : List AggRow).length
    ∧ ((annotateSeries
        [{ customer_name := "A", period := 0, loads := 0 },
         { customer_name := "A", period := 1, loads := 5 }]).getD 1 default).prev_loads
      = some 0 := by
  have h : 1 < ([{ customer_name := "A", period := 0, loads := 0 },
      { customer_name := "A", period := 1, loads := 5 }] : List AggRow).length := by decide
  have h2 : 1 < (annotateSeries
      [{ customer_name := "A", period := 0, loads := 0 },
       { customer_name := "A", period := 1, loads := 5 }]).length := by decide
  have hmain := (trend_change_engine_spec
    [{ customer_name := "A", period := 0, loads := 0 },
     { customer_name := "A", period := 1, loads := 5 }] 1 h h2).1
  refine ⟨h, ?_⟩
  rw [List.getD_eq_getElem _ _ h2, hmain]
  rfl

/-! ## Claims C4 and C5 — Run-Rate Projector -/

theorem pyInt_eq_floor {q : ℚ} (hq : 0 ≤ q) : pyInt q = ⌊q⌋ :=
  if_pos hq

theorem add_run_rate_length (today : Date) (monthly : List WowRow) :
    (add_run_rate today monthly).length = monthly.length := by
  rcases monthly with _ | ⟨a, t⟩
  · rfl
  · simp [add_run_rate]

theorem add_run_rate_getElem (today : Date) (monthly : List WowRow) (i : Nat)
    (h2 : i < monthly.length) (h : i < (add_run_rate today monthly).length) :
    (add_run_rate today monthly)[i] = runRateRowFor today (monthly[i]) := by
  rcases monthly with _ | ⟨a, t⟩
  · simp at h2
  · have heq : add_run_rate today (a :: t) = (a :: t).map (runRateRowFor today) := by
      simp [add_run_rate]
    simp only [heq]
    exact List.getElem_map (runRateRowFor today)

theorem runRateRowFor_base (today : Date) (r : WowRow) :
    (runRateRowFor today r).base = r := by
  simp only [runRateRowFor]
  split
  · rfl
  · rfl

theorem runRateRowFor_is_current (today : Date) (r : WowRow) :
    (runRateRowFor today r).is_current_month = (r.base.period == currentMonthKey today) := by
  simp only [runRateRowFor]
  split
  · rfl
  · rfl

/-- C4: in the Run-Rate Projector's output, a current-month row (month key
equal to `today`'s) with `days_elapsed = today.day > 0` projects
`run_rate_loads = ⌊loads / days_elapsed × days_in_month⌋` and
`run_rate_revenue = round(revenue / days_elapsed × days_in_month)`; every
non-current row, and every row when `days_elapsed = 0`, passes actual loads
and revenue through unchanged. -/
theorem run_rate_projection_spec (today : Date) (monthly : List WowRow) (i : Nat)
    (h : i < (add_run_rate today monthly).length) :
    (((add_run_rate today monthly)[i]).is_current_month = true → 0 < today.day →
        ((add_run_rate today monthly)[i]).run_rate_loads
          = ⌊(((add_run_rate today monthly)[i]).base.base.loads : ℚ) / (today.day : ℚ)
              * (monthLength today.year today.month : ℚ)⌋
        ∧ ((add_run_rate today monthly)[i]).run_rate_revenue
          = pyRound 0 (((add_run_rate today monthly)[i]).base.base.revenue / (today.day : ℚ)
              * (monthLength today.year today.month : ℚ)))
    ∧ (((add_run_rate today monthly)[i]).is_current_month = false →
        ((add_run_rate today monthly)[i]).run_rate_loads
          = (((add_run_rate today monthly)[i]).base.base.loads : Int)
        ∧ ((add_run_rate today monthly)[i]).run_rate_revenue
          = ((add_run_rate today monthly)[i]).base.base.revenue)
    ∧ (today.day = 0 →
        ((add_run_rate today monthly)[i]).run_rate_loads
          = (((add_run_rate today monthly)[i]).base.base.loads : Int)
        ∧ ((add_run_rate today monthly)[i]).run_rate_revenue
          = ((add_run_rate today monthly)[i]).base.base.revenue) := by
  have h2 : i < monthly.length := by rw [← add_run_rate_length today monthly]; exact h
  have hrw : (add_run_rate today monthly)[i] = runRateRowFor today (monthly[i]) :=
    add_run_rate_getElem today monthly i h2 h
  rw [hrw, runRateRowFor_base, runRateRowFor_is_current]
  simp only [runRateRowFor]
  by_cases hde : 0 < today.day
  · rw [if_pos hde]
    refine ⟨?_, ?_, ?_⟩
    · intro hcur hde2
      rw [hcur]
      constructor
      · show pyInt _ = _
        apply pyInt_eq_floor
        positivity
      · rfl
    · intro hcur
      rw [hcur]
      exact ⟨rfl, rfl⟩
    · intro hzero
      exact absurd hzero (by omega)
  · rw [if_neg hde]
    exact ⟨fun _ hde2 => absurd hde2 hde, fun _ => ⟨rfl, rfl⟩, fun _ => ⟨rfl, rfl⟩⟩

/-- A monthly row for a month other than March 2024, used as the run-rate
witness input. -/
def pastMonthRow : WowRow :=
  { base := { customer_name := "A", period := 202402, loads := 7 } }

/-- The tenth of March 2024, the explicit `today` of the run-rate witnesses. -/
def witnessToday : Date :=
  { year := 2024, month := 3, day := 10 }

/-- Witness for `run_rate_projection_spec`: a past-month row passes through
unprojected. -/
theorem run_rate_projection_spec_witness :
    0 < (add_run_rate witnessToday [pastMonthRow]).length
    ∧ ((add_run_rate witnessToday [pastMonthRow]).getD 0 default).is_current_month = false
    ∧ ((add_run_rate witnessToday [pastMonthRow]).getD 0 default).run_rate_loads
        = (((add_run_rate witnessToday [pastMonthRow]).getD 0 default).base.base.loads : Int)
    ∧ ((add_run_rate witnessToday [pastMonthRow]).getD 0 default).run_rate_revenue
        = ((add_run_rate witnessToday [pastMonthRow]).getD 0 default).base.base.revenue := by
  have h : 0 < (add_run_rate witnessToday [pastMonthRow]).length := by decide
  have hcur : ((add_run_rate witnessToday [pastMonthRow]).getD 0 default).is_current_month
      = false := by decide
  have hmain := (run_rate_projection_spec witnessToday [pastMonthRow] 0 h).2.1
  rw [List.getD_eq_getElem _ _ h] at hcur ⊢
  exact ⟨h, hcur, hmain hcur⟩

/-- C5: run-rate monotonicity — every current-month row with positive actual
loads and `days_elapsed < days_in_month` projects at least its actual load
count. -/
theorem run_rate_monotone (today : Date) (monthly : List WowRow) (i : Nat)
    (h : i < (add_run_rate today monthly).length)
    (hc : ((add_run_rate today monthly)[i]).is_current_month = true)
    (hl : 0 < ((add_run_rate today monthly)[i]).base.base.loads)
    (hd : today.day < monthLength today.year today.month) :
    (((add_run_rate today monthly)[i]).base.base.loads : Int)
      ≤ ((add_run_rate today monthly)[i]).run_rate_loads := by
  have h2 : i < monthly.length := by rw [← add_run_rate_length today monthly]; exact h
  have hrw : (add_run_rate today monthly)[i] = runRateRowFor today (monthly[i]) :=
    add_run_rate_getElem today monthly i h2 h
  rw [hrw] at hc hl ⊢
  rw [runRateRowFor_is_current] at hc
  rw [runRateRowFor_base] at hl
  rw [runRateRowFor_base]
  simp only [runRateRowFor]
  by_cases hde : 0 < today.day
  · rw [if_pos hde, hc]
    show ((monthly[i]).base.loads : Int)
      ≤ pyInt (((monthly[i]).base.loads : ℚ) / (today.day : ℚ)
          * (monthLength today.year today.month : ℚ))
    have hq : (0 : ℚ) ≤ ((monthly[i]).base.loads : ℚ) / (today.day : ℚ)
        * (monthLength today.year today.month : ℚ) := by positivity
    rw [pyInt_eq_floor hq]
    apply Int.le_floor.mpr
    have hde0 : (0 : ℚ) < (today.day : ℚ) := by exact_mod_cast hde
    rw [div_mul_eq_mul_div, le_div_iff₀ hde0]
    push_cast
    have hcast : ((today.day : ℚ)) ≤ (monthLength today.year today.month : ℚ) := by
      exact_mod_cast Nat.le_of_lt hd
    have hln : (0 : ℚ) ≤ ((monthly[i]).base.loads : ℚ) := by positivity
    nlinarith
  · rw [if_neg hde]

/-- A current-month row with positive loads, used for the monotonicity
witness. -/
def currentMonthRow : WowRow :=
  { base := { customer_name := "A", period := 202403, loads := 5 } }

/-- Witness for `run_rate_monotone` on a March 2024 row ten days into the
month. -/
theorem run_rate_monotone_witness :
    0 < (add_run_rate witnessToday [currentMonthRow]).length
    ∧ ((add_run_rate witnessToday [currentMonthRow]).getD 0 default).is_current_month = true
    ∧ 0 < ((add_run_rate witnessToday [currentMonthRow]).getD 0 default).base.base.loads
    ∧ witnessToday.day < monthLength witnessToday.year witnessToday.month
    ∧ (((add_run_rate witnessToday [currentMonthRow]).getD 0 default).base.base.loads : Int)
        ≤ ((add_run_rate witnessToday [currentMonthRow]).getD 0 default).run_rate_loads := by
  have h : 0 < (add_run_rate witnessToday [currentMonthRow]).length := by decide
  have hcur : ((add_run_rate witnessToday [currentMonthRow]).getD 0 default).is_current_month
      = true := by decide
  have hl : 0 < ((add_run_rate witnessToday [currentMonthRow]).getD 0 default).base.base.loads := by
    decide
  have hd : witnessToday.day < monthLength witnessToday.year witnessToday.month := by decide
  rw [List.getD_eq_getElem _ _ h] at hcur hl ⊢
  exact ⟨h, hcur, hl, hd, run_rate_monotone witnessToday [currentMonthRow] 0 h hcur hl hd⟩

/-! ## Claim C1 — always-visible skeleton join -/

/-- C1: for every master entity (under distinct master names) and every
period present in the normalized loads, the skeleton join has exactly one
row keyed by that (entity, period) pair; and any such row whose load group
is empty carries zero loads, zero revenue, zero uncontrollable events, and
the `NaN` sentinel (`none`) — never zero — for both mean on-time rates. -/
theorem skeleton_join_always_visible (loads : List NormRecord) (master : List MasterRec)
    (perOf : NormRecord → Int) (cust : MasterRec) (p : Int)
    (hm : cust ∈ master) (hnd : (master.map (fun c => c.name)).Nodup)
    (hp : p ∈ loads.map perOf) :
    (skeleton_join loads master perOf).countP
        (fun row => row.customer_name == cust.name && row.period == p) = 1
    ∧ ∀ row ∈ skeleton_join loads master perOf,
        row.customer_name = cust.name → row.period = p →
        loads.filter (fun r => r.customer_name == cust.name && perOf r == p) = [] →
          row.loads = 0 ∧ row.revenue = 0 ∧ row.uncontrollable_events = 0
          ∧ row.otp = none ∧ row.otd = none := by
  have hlne : loads.isEmpty = false := by
    rcases loads with _ | ⟨a, t⟩
    · simp at hp
    · rfl
  have hmne : master.isEmpty = false := by
    rcases master with _ | ⟨a, t⟩
    · simp at hm
    · rfl
  have hsk : skeleton_join loads master perOf
      = (sortedPeriods (loads.map perOf)).flatMap
          (fun per => master.map (aggCell loads perOf per)) := by
    unfold skeleton_join
    rw [hlne, hmne]
    rfl
  constructor
  · rw [hsk, countP_flatMap]
    apply sum_map_count_one (count_sortedPeriods hp)
    · rw [List.countP_map]
      have hcongr : List.countP
          ((fun row => row.customer_name == cust.name && row.period == p)
            ∘ aggCell loads perOf p) master
          = List.countP (fun c => c.name == cust.name) master := by
        apply List.countP_congr
        intro c hc
        simp [Function.comp, aggCell_customer_name, aggCell_period]
      rw [hcongr]
      have hcnt : List.countP (fun c => c.name == cust.name) master
          = (master.map (fun c => c.name)).count cust.name := by
        rw [List.count, List.countP_map]
        rfl
      rw [hcnt]
      exact List.count_eq_one_of_mem hnd (List.mem_map_of_mem _ hm)
    · intro per hper
      rw [List.countP_map]
      apply List.countP_eq_zero.mpr
      intro c hc
      simp only [Function.comp, aggCell_customer_name, aggCell_period]
      intro hcontra
      exact hper (by simpa using (Bool.and_eq_true _ _ |>.mp hcontra).2)
  · intro row hrow hname hper hfilter
    rw [hsk] at hrow
    obtain ⟨per, hperiods, rowmem⟩ := List.mem_flatMap.mp hrow
    obtain ⟨c, hcmem, hcell⟩ := List.mem_map.mp rowmem
    have hperp : per = p := by rw [← hper, ← hcell, aggCell_period]
    have hcname : c.name = cust.name := by rw [← hname, ← hcell, aggCell_customer_name]
    subst hperp
    have hgrp : loads.filter (fun r => r.customer_name == c.name && perOf r == per) = [] := by
      rw [hcname]; exact hfilter
    rw [← hcell]
    unfold aggCell
    rw [hgrp]
    simp

/-- A normalized load row used in the always-visible witness. -/
def witnessLoadRow : NormRecord :=
  { customer_name := "Acme", week_start := 19793 }

/-- A master entity used in the always-visible witness. -/
def witnessMaster : MasterRec :=
  { id := "m1", name := "Acme" }

/-- Witness for `skeleton_join_always_visible` on a one-load, one-entity
instance. -/
theorem skeleton_join_always_visible_witness :
    (witnessMaster ∈ [witnessMaster]
      ∧ ([witnessMaster].map (fun c => c.name)).Nodup
      ∧ (19793 : Int) ∈ [witnessLoadRow].map (fun r => r.week_start))
    ∧ (skeleton_join [witnessLoadRow] [witnessMaster] (fun r => r.week_start)).countP
        (fun row => row.customer_name == witnessMaster.name && row.period == (19793 : Int)) = 1 := by
  have h := skeleton_join_always_visible [witnessLoadRow] [witnessMaster]
    (fun r => r.week_start) witnessMaster 19793
    (List.mem_singleton.mpr rfl) (by decide) (by decide)
  exact ⟨⟨List.mem_singleton.mpr rfl, by decide, by decide⟩, h.1⟩

/-! ## Claim C9 — only master entities appear in aggregates -/

/-- C9: every skeleton-join row (weekly or monthly, by choice of period
selector) draws its `customer_name` from the master list, and carries
exactly the loads and revenue of the normalized records matching its own
(name, period) pair; consequently a normalized load whose `customer_name`
is not in the master list matches no row's name — its loads and revenue
appear in no aggregate row. -/
theorem aggregates_master_only (loads : List NormRecord) (master : List MasterRec)
    (perOf : NormRecord → Int) :
    (∀ row ∈ skeleton_join loads master perOf,
        row.customer_name ∈ master.map (fun c => c.name)
        ∧ row.loads = (loads.filter
            (fun r => r.customer_name == row.customer_name && perOf r == row.period)).length
        ∧ row.revenue = ((loads.filter
            (fun r => r.customer_name == row.customer_name && perOf r == row.period)).map
          (fun r => r.pricing_total)).sum)
    ∧ ∀ rec ∈ loads, rec.customer_name ∉ master.map (fun c => c.name) →
        ∀ row ∈ skeleton_join loads master perOf, row.customer_name ≠ rec.customer_name := by
  have hmem : ∀ row ∈ skeleton_join loads master perOf,
      row.customer_name ∈ master.map (fun c => c.name)
      ∧ row.loads = (loads.filter
          (fun r => r.customer_name == row.customer_name && perOf r == row.period)).length
      ∧ row.revenue = ((loads.filter
          (fun r => r.customer_name == row.customer_name && perOf r == row.period)).map
        (fun r => r.pricing_total)).sum := by
    intro row hrow
    unfold skeleton_join at hrow
    rcases hl : loads.isEmpty with _ | _
    · rcases hmm : master.isEmpty with _ | _
      · rw [hl, hmm] at hrow
        simp only [Bool.or_self, if_false] at hrow
        obtain ⟨per, hperiods, rowmem⟩ := List.mem_flatMap.mp hrow
        obtain ⟨c, hcmem, hcell⟩ := List.mem_map.mp rowmem
        subst hcell
        refine ⟨List.mem_map_of_mem _ hcmem, ?_, ?_⟩
        · rw [aggCell_customer_name, aggCell_period]
          rfl
        · rw [aggCell_customer_name, aggCell_period]
          rfl
      · rw [hl, hmm] at hrow
        simp at hrow
    · rw [hl] at hrow
      simp at hrow
  refine ⟨hmem, ?_⟩
  intro rec hrec hnot row hrow heq
  exact hnot (heq ▸ (hmem row hrow).1)

/-- A normalized load whose customer is absent from the master list, for the
C9 witness. -/
def strayLoadRow : NormRecord :=
  { customer_name := "Stray", week_start := 19793 }

/-- Witness for `aggregates_master_only`: a load from an unknown customer
matches no skeleton row. -/
theorem aggregates_master_only_witness :
    strayLoadRow ∈ [strayLoadRow]
    ∧ strayLoadRow.customer_name ∉ [witnessMaster].map (fun c => c.name)
    ∧ ∀ row ∈ skeleton_join [strayLoadRow] [witnessMaster] (fun r => r.week_start),
        row.customer_name ≠ strayLoadRow.customer_name := by
  refine ⟨List.mem_singleton.mpr rfl, by decide, ?_⟩
  exact (aggregates_master_only [strayLoadRow] [witnessMaster] (fun r => r.week_start)).2
    strayLoadRow (List.mem_singleton.mpr rfl) (by decide)

/-! ## Claim C6 — STALE ACCOUNT rule -/

theorem count_if_singleton_ne (c : Prop) [Decidable c] {s a : String} (h : s ≠ a) :
    (if c then [s] else []).count a = 0 := by
  apply List.count_eq_zero.mpr
  intro hmem
  split at hmem
  · exact h (List.mem_singleton.mp hmem).symm
  · simp at hmem

theorem count_if_singleton_self (c : Prop) [Decidable c] (s : String) :
    (if c then [s] else []).count s = if c then 1 else 0 := by
  split
  · simp [List.count_singleton]
  · rfl

/-- The STALE ACCOUNT flag occurs in a row's flag list exactly when the rule
condition holds, and then exactly once. -/
theorem count_stale_flagsFor (tr : ℚ) (th : Nat) (x : WowRow) :
    (flagsFor tr th x).count "STALE ACCOUNT (0 LOADS)"
      = if x.base.loads = 0 ∧ 0 < th then 1 else 0 := by
  simp only [flagsFor]
  rw [List.count_append, List.count_append, List.count_append, List.count_append]
  rw [count_if_singleton_self]
  rw [count_if_singleton_ne _ (by decide), count_if_singleton_ne _ (by decide),
    count_if_singleton_ne _ (by decide), count_if_singleton_ne _ (by decide)]
  simp

/-- What an emitted risk row carries. -/
theorem riskRowFor_some {weekly : List WowRow} {w : Int} {tr : ℚ} {x : WowRow}
    {out : RiskRow} (h : riskRowFor weekly w tr x = some out) :
    out.customer_name = x.base.customer_name
    ∧ out.flags = flagsFor tr (trailingSumOf weekly w x.base.customer_name) x := by
  simp only [riskRowFor] at h
  split at h
  · exact absurd h (by simp)
  · have := Option.some.inj h
    exact ⟨by rw [← this], by rw [← this]⟩

/-- A suppressed risk row means the flag list was empty. -/
theorem riskRowFor_none {weekly : List WowRow} {w : Int} {tr : ℚ} {x : WowRow}
    (h : riskRowFor weekly w tr x = none) :
    flagsFor tr (trailingSumOf weekly w x.base.customer_name) x = [] := by
  simp only [riskRowFor] at h
  split at h
  · exact List.isEmpty_iff.mp (by assumption)
  · exact absurd h (by simp)

theorem stale_sum_zero (weekly : List WowRow) (w : Int) (tr : ℚ) (name : String) :
    ∀ l : List WowRow, l.countP (fun x => x.base.customer_name == name) = 0 →
      (l.filterMap (riskRowFor weekly w tr)).filter (fun o => o.customer_name == name) = [] := by
  intro l
  induction l with
  | nil => intro hcnt; rfl
  | cons x t ih =>
    intro hcnt
    rw [List.countP_cons] at hcnt
    have hx : (x.base.customer_name == name) = false := by
      rcases hbe : x.base.customer_name == name with _ | _
      · rfl
      · rw [hbe] at hcnt; simp at hcnt
    have ht : t.countP (fun x => x.base.customer_name == name) = 0 := by
      rw [hx] at hcnt; simpa using hcnt
    rw [List.filterMap_cons]
    rcases hrisk : riskRowFor weekly w tr x with _ | out
    · exact ih ht
    · have hname := (riskRowFor_some hrisk).1
      have : (out.customer_name == name) = false := by rw [hname]; exact hx
      rw [List.filter_cons_of_neg (by rw [this]; exact Bool.false_ne_true)]
      exact ih ht

theorem stale_sum_aux (weekly : List WowRow) (w : Int) (tr : ℚ) (r : WowRow) :
    ∀ l : List WowRow, r ∈ l →
      l.countP (fun x => x.base.customer_name == r.base.customer_name) = 1 →
      (((l.filterMap (riskRowFor weekly w tr)).filter
          (fun o => o.customer_name == r.base.customer_name)).map
        (fun o => o.flags.count "STALE ACCOUNT (0 LOADS)")).sum
      = (flagsFor tr (trailingSumOf weekly w r.base.customer_name) r).count
          "STALE ACCOUNT (0 LOADS)" := by
  intro l
  induction l with
  | nil => intro hmem; simp at hmem
  | cons x t ih =>
    intro hmem hcnt
    rw [List.countP_cons] at hcnt
    rcases hbe : x.base.customer_name == r.base.customer_name with _ | _
    · -- head does not match the entity
      have hxr : x ≠ r := by
        intro he; subst he
        rw [beq_self_eq_true] at hbe
        exact Bool.noConfusion hbe
      have hrt : r ∈ t := by
        rcases List.mem_cons.mp hmem with he | ht
        · exact absurd he.symm hxr
        · exact ht
      have ht : t.countP (fun x => x.base.customer_name == r.base.customer_name) = 1 := by
        rw [hbe] at hcnt; simpa using hcnt
      rw [List.filterMap_cons]
      rcases hrisk : riskRowFor weekly w tr x with _ | out
      · exact ih hrt ht
      · have hname := (riskRowFor_some hrisk).1
        have : (out.customer_name == r.base.customer_name) = false := by rw [hname]; exact hbe
        rw [List.filter_cons_of_neg (by rw [this]; exact Bool.false_ne_true)]
        exact ih hrt ht
    · -- head matches the entity: it must be the entity's unique row
      have ht : t.countP (fun x => x.base.customer_name == r.base.customer_name) = 0 := by
        rw [hbe] at hcnt; simpa using hcnt
      have hxr : x = r := by
        rcases List.mem_cons.mp hmem with he | hrt
        · exact he.symm
        · exfalso
          have : 0 < t.countP (fun x => x.base.customer_name == r.base.customer_name) :=
            List.countP_pos_iff.mpr ⟨r, hrt, beq_self_eq_true _⟩
          omega
      subst hxr
      rw [List.filterMap_cons]
      rcases hrisk : riskRowFor weekly w tr x with _ | out
      · rw [stale_sum_zero weekly w tr _ t ht]
        rw [riskRowFor_none hrisk]
        rfl
      · obtain ⟨hname, hflags⟩ := riskRowFor_some hrisk
        rw [List.filter_cons_of_pos (by rw [hname]; exact beq_self_eq_true _)]
        rw [List.map_cons, List.sum_cons, stale_sum_zero weekly w tr _ t ht]
        rw [hflags]
        simp

/-- C6: the STALE ACCOUNT flag is attributed to an entity in the selected
week exactly when that entity's current-week row has zero loads and its
summed loads over the trailing window — the up-to-12 distinct weeks strictly
before the target week by position in the sorted distinct-week list
(`trailingWeeksOf`) — are positive; and then the flag occurs exactly once
across the entity's emitted flag lists. -/
theorem stale_account_iff (weekly : List WowRow) (w : Int) (r : WowRow)
    (hr : r ∈ weekly) (hw : r.base.period = w)
    (hu : (weekly.filter (fun x => x.base.period == w)).countP
        (fun x => x.base.customer_name == r.base.customer_name) = 1) :
    (((compute_risk_flags weekly w).filter
        (fun o => o.customer_name == r.base.customer_name)).map
      (fun o => o.flags.count "STALE ACCOUNT (0 LOADS)")).sum
    = if r.base.loads = 0 ∧ 0 < trailingSumOf weekly w r.base.customer_name then 1 else 0 := by
  have hrc : r ∈ weekly.filter (fun x => x.base.period == w) :=
    List.mem_filter.mpr ⟨hr, by rw [hw]; exact beq_self_eq_true w⟩
  have hwne : weekly.isEmpty = false :=
    List.isEmpty_eq_false.mpr (List.ne_nil_of_mem hr)
  have hcne : (weekly.filter (fun x => x.base.period == w)).isEmpty = false :=
    List.isEmpty_eq_false.mpr (List.ne_nil_of_mem hrc)
  have hck : compute_risk_flags weekly w
      = (weekly.filter (fun x => x.base.period == w)).filterMap
          (riskRowFor weekly w (((weekly.filter (fun x => x.base.period == w)).map
            (fun x => x.base.revenue)).sum)) := by
    simp only [compute_risk_flags, hwne, hcne, Bool.false_eq_true, if_false]
  rw [hck,
    stale_sum_aux weekly w _ r (weekly.filter (fun x => x.base.period == w)) hrc hu,
    count_stale_flagsFor]

/-- The previously active week of the stale-account witness. -/
def staleHistRow : WowRow :=
  { base := { customer_name := "A", period := 100, loads := 10 } }

/-- The zero-load current week of the stale-account witness. -/
def staleCurRow : WowRow :=
  { base := { customer_name := "A", period := 107, loads := 0 } }

/-- Witness for `stale_account_iff` on a two-week history: zero loads this
week, ten loads last week. -/
theorem stale_account_iff_witness :
    staleCurRow ∈ [staleHistRow, staleCurRow]
    ∧ staleCurRow.base.period = 107
    ∧ (([staleHistRow, staleCurRow].filter (fun x => x.base.period == (107 : Int))).countP
        (fun x => x.base.customer_name == staleCurRow.base.customer_name) = 1)
    ∧ (((compute_risk_flags [staleHistRow, staleCurRow] 107).filter
          (fun o => o.customer_name == staleCurRow.base.customer_name)).map
        (fun o => o.flags.count "STALE ACCOUNT (0 LOADS)")).sum
      = if staleCurRow.base.loads = 0
            ∧ 0 < trailingSumOf [staleHistRow, staleCurRow] 107 staleCurRow.base.customer_name
        then 1 else 0 := by
  refine ⟨by decide, rfl, by decide, ?_⟩
  exact stale_account_iff [staleHistRow, staleCurRow] 107 staleCurRow
    (by decide) rfl (by decide)

/-! ## Claim C10 — on-time flags are constantly 1 -/

theorem mkWow_base (p : Option Nat) (hist : List Nat) (r : AggRow) :
    (mkWow p hist r).base = r := rfl

theorem mkWow_service_risk (p : Option Nat) (hist : List Nat) (r : AggRow) :
    (mkWow p hist r).service_risk
      = match r.otd with
        | some x => if x < 9/10 then "AT RISK" else "OK"
        | none => "N/A" := rfl

theorem aggCell_otd (loads : List NormRecord) (perOf : NormRecord → Int)
    (per : Int) (cust : MasterRec) :
    (aggCell loads perOf per cust).otd
      = (if (loads.filter (fun r => r.customer_name == cust.name && perOf r == per)).length = 0
         then none
         else some (ratMean ((loads.filter
             (fun r => r.customer_name == cust.name && perOf r == per)).map
           (fun r => r.on_time_delivery)))) := rfl

theorem sum_map_all_one (f : NormRecord → ℚ) :
    ∀ l : List NormRecord, (∀ x ∈ l, f x = 1) → (l.map f).sum = (l.length : ℚ) := by
  intro l
  induction l with
  | nil => intro hall; simp
  | cons a t ih =>
    intro hall
    rw [List.map_cons, List.sum_cons, hall a (List.mem_cons_self a t),
      ih (fun x hx => hall x (List.mem_cons_of_mem a hx)), List.length_cons]
    push_cast
    ring

/-- When every normalized load has on-time-delivery 1, every skeleton cell's
mean is the sentinel or exactly 1. -/
theorem skeleton_join_otd_of_all_one {loads : List NormRecord} {master : List MasterRec}
    {perOf : NormRecord → Int}
    (h1 : ∀ rec ∈ loads, rec.on_time_delivery = 1) :
    ∀ row ∈ skeleton_join loads master perOf, row.otd = none ∨ row.otd = some 1 := by
  intro row hrow
  obtain ⟨_, per, hper, c, hc, hcell⟩ := mem_skeleton_join.mp hrow
  subst hcell
  rw [aggCell_otd]
  by_cases hg : (loads.filter (fun r => r.customer_name == c.name && perOf r == per)).length = 0
  · rw [if_pos hg]; exact Or.inl rfl
  · rw [if_neg hg]
    right
    have hall : ∀ x ∈ loads.filter (fun r => r.customer_name == c.name && perOf r == per),
        x.on_time_delivery = 1 :=
      fun x hx => h1 x (List.mem_filter.mp hx).1
    have hsum := sum_map_all_one (fun r => r.on_time_delivery) _ hall
    unfold ratMean
    rw [List.length_map, hsum, div_self (Nat.cast_ne_zero.mpr hg)]

theorem mem_annotateGo :
    ∀ (l : List AggRow) (prev : Option Nat) (hist : List Nat) {row : WowRow},
      row ∈ annotateGo prev hist l → ∃ p h r, r ∈ l ∧ row = mkWow p h r := by
  intro l
  induction l with
  | nil => intro prev hist row h; simp [annotateGo] at h
  | cons a t ih =>
    intro prev hist row h
    rw [annotateGo] at h
    rcases List.mem_cons.mp h with heq | hmem
    · exact ⟨prev, hist, a, List.mem_cons_self a t, heq⟩
    · obtain ⟨p, h2, r, hr, heq⟩ := ih _ _ hmem
      exact ⟨p, h2, r, List.mem_cons_of_mem a hr, heq⟩

theorem mem_add_wow_and_flags {df : List AggRow} {row : WowRow}
    (h : row ∈ add_wow_and_flags df) :
    ∃ p hist r, r ∈ df ∧ row = mkWow p hist r := by
  simp only [add_wow_and_flags] at h
  obtain ⟨c, hc, hrow⟩ := List.mem_flatMap.mp h
  obtain ⟨p, hist, r, hr, heq⟩ := mem_annotateGo _ none [] hrow
  refine ⟨p, hist, r, ?_, heq⟩
  have hr2 : r ∈ df.filter (fun r => r.customer_name == c) := by
    unfold periodSortRows at hr
    exact (List.perm_insertionSort _ _).mem_iff.mp hr
  exact (List.mem_filter.mp hr2).1

/-- Every trend-annotated row built from sentinel-or-1 delivery rates has a
service risk other than `"AT RISK"`. -/
theorem add_wow_service_risk {df : List AggRow}
    (h1 : ∀ r ∈ df, r.otd = none ∨ r.otd = some 1) :
    ∀ row ∈ add_wow_and_flags df,
      (row.base.otd = none ∨ row.base.otd = some 1)
      ∧ row.service_risk ≠ "AT RISK" := by
  intro row hrow
  obtain ⟨p, hist, r, hr, heq⟩ := mem_add_wow_and_flags hrow
  have hotd := h1 r hr
  subst heq
  rw [mkWow_base, mkWow_service_risk]
  refine ⟨hotd, ?_⟩
  rcases hotd with h | h
  · rw [h]
    decide
  · rw [h]
    show (if (1 : ℚ) < 9/10 then "AT RISK" else "OK") ≠ "AT RISK"
    have hlt : ¬((1 : ℚ) < 9/10) := by norm_num
    rw [if_neg hlt]
    decide

theorem mem_add_run_rate {today : Date} {monthly : List WowRow} {row : RunRateRow}
    (h : row ∈ add_run_rate today monthly) :
    ∃ r ∈ monthly, row = runRateRowFor today r := by
  unfold add_run_rate at h
  split at h
  · simp at h
  · obtain ⟨r, hr, heq⟩ := List.mem_map.mp h
    exact ⟨r, hr, heq.symm⟩

theorem mem_compute_risk_flags {weekly : List WowRow} {w : Int} {rr : RiskRow}
    (h : rr ∈ compute_risk_flags weekly w) :
    ∃ x ∈ weekly, ∃ tr,
      rr.flags = flagsFor tr (trailingSumOf weekly w x.base.customer_name) x := by
  simp only [compute_risk_flags] at h
  split at h
  · simp at h
  · split at h
    · simp at h
    · obtain ⟨x, hx, hsome⟩ := List.mem_filterMap.mp h
      refine ⟨x, (List.mem_filter.mp hx).1, _, (riskRowFor_some hsome).2⟩

theorem mem_if_singleton {c : Prop} [inst : Decidable c] {s a : String}
    (h : a ∈ if c then [s] else []) : a = s ∧ c := by
  by_cases hc : c
  · rw [if_pos hc] at h
    exact ⟨List.mem_singleton.mp h, hc⟩
  · rw [if_neg hc] at h
    simp at h

/-- Membership of the POOR SERVICE flag forces a defined sub-90% rate. -/
theorem mem_flagsFor_poor {tr : ℚ} {th : Nat} {x : WowRow}
    (h : "HIGH REVENUE + POOR SERVICE" ∈ flagsFor tr th x) :
    poorOTD x.base.otd = true := by
  simp only [flagsFor] at h
  rcases List.mem_append.mp h with habcd | he
  · rcases List.mem_append.mp habcd with habc | hd
    · rcases List.mem_append.mp habc with hab | hc
      · rcases List.mem_append.mp hab with ha | hb
        · exact absurd (mem_if_singleton ha).1 (by decide)
        · exact (mem_if_singleton hb).2.2
      · exact absurd (mem_if_singleton hc).1 (by decide)
    · exact absurd (mem_if_singleton hd).1 (by decide)
  · exact absurd (mem_if_singleton he).1 (by decide)

/-- C10: the Record Normalizer emits `on_time_pickup = on_time_delivery = 1`
unconditionally, so on any pipeline output built from `flatten_loads` every
defined weekly mean on-time-delivery rate is exactly 1, the weekly and
monthly service-risk categories are never `"AT RISK"`, and the
HIGH REVENUE + POOR SERVICE rule can never fire. -/
theorem on_time_always_one (raws : List RawLoad) (customers : List RawCustomer)
    (today : Date) (w : Int) :
    (∀ rec ∈ (transform_loads raws customers today).cleaned,
        rec.on_time_pickup = 1 ∧ rec.on_time_delivery = 1)
    ∧ (∀ row ∈ (transform_loads raws customers today).weekly,
        (row.base.otd = none ∨ row.base.otd = some 1) ∧ row.service_risk ≠ "AT RISK")
    ∧ (∀ row ∈ (transform_loads raws customers today).monthly,
        row.base.service_risk ≠ "AT RISK")
    ∧ (∀ rr ∈ compute_risk_flags (transform_loads raws customers today).weekly w,
        "HIGH REVENUE + POOR SERVICE" ∉ rr.flags) := by
  have hflat : ∀ rec ∈ flatten_loads raws,
      rec.on_time_pickup = 1 ∧ rec.on_time_delivery = 1 := by
    intro rec h
    obtain ⟨l, _, hsome⟩ := List.mem_filterMap.mp h
    exact normalizeLoad_on_time hsome
  have hweekly : ∀ row ∈ (transform_loads raws customers today).weekly,
      (row.base.otd = none ∨ row.base.otd = some 1) ∧ row.service_risk ≠ "AT RISK" := by
    intro row hrow
    have hrow2 : row ∈ add_wow_and_flags
        (skeleton_join (flatten_loads raws) (build_customer_master customers)
          (fun r => r.week_start)) := hrow
    exact add_wow_service_risk
      (skeleton_join_otd_of_all_one (fun rec h => (hflat rec h).2)) row hrow2
  refine ⟨hflat, hweekly, ?_, ?_⟩
  · intro row hrow
    have hrow2 : row ∈ add_run_rate today
        (add_wow_and_flags (skeleton_join (flatten_loads raws)
          (build_customer_master customers) (fun r => r.month_start))) := hrow
    obtain ⟨r, hr, heq⟩ := mem_add_run_rate hrow2
    have hsr := (add_wow_service_risk
      (skeleton_join_otd_of_all_one (fun rec h => (hflat rec h).2)) r hr).2
    rw [heq, runRateRowFor_base]
    exact hsr
  · intro rr hrr hmem
    obtain ⟨x, hx, tr, hflags⟩ := mem_compute_risk_flags hrr
    rw [hflags] at hmem
    have hpoor := mem_flagsFor_poor hmem
    rcases (hweekly x hx).1 with h | h
    · rw [h] at hpoor
      exact Bool.noConfusion hpoor
    · rw [h] at hpoor
      have : (1 : ℚ) < 9/10 := of_decide_eq_true hpoor
      norm_num at this

/-- Witness for `on_time_always_one` on the sample load's pipeline run. -/
theorem on_time_always_one_witness :
    (flatten_loads [sampleLoad]).headI ∈ (transform_loads [sampleLoad] [] witnessToday).cleaned
    ∧ ((flatten_loads [sampleLoad]).headI).on_time_pickup = 1
    ∧ ((flatten_loads [sampleLoad]).headI).on_time_delivery = 1 := by
  have hm : (flatten_loads [sampleLoad]).headI
      ∈ (transform_loads [sampleLoad] [] witnessToday).cleaned := by decide
  exact ⟨hm, (on_time_always_one [sampleLoad] [] witnessToday 0).1 _ hm⟩

end Dashboard
